import Mathlib

/-!
Verification of the tabular exploration pipeline implemented in
src/dashboard-filters.py (with the chart block shared with src/dashboard.py).

Modelling conventions:
* a pandas DataFrame is a Table: a header of (column name, dtype) pairs and a
  list of rows, each row a list of scalar cells aligned with the header;
* scalar cells are Val: strings, integers (machine numbers are modelled as
  unbounded integers, since no claim depends on overflow or on fractional
  values), parsed datetimes (encoded as integers so that chronological order
  is integer order), and NA (pandas NaN/NaT);
* Python string operations (strip, replace, lower, the in operator) are
  modelled character-wise over ASCII, which covers the trigger substrings the
  source matches against;
* pd.to_datetime(..., errors="coerce") is modelled by an ISO yyyy-mm-dd
  parser that yields NA on any unparseable cell, which is the only property
  the source relies on (unparseable rows become NA and are dropped).
-/

/-- Dtype of a pandas column as the source discriminates them: line 64 tests
for "object", line 80 selects float64/int64 columns, and pd.to_datetime
produces datetime64 columns. -/
inductive Dtype
  | object
  | int64
  | float64
  | datetime64
deriving DecidableEq

/-- Scalar cell of a table: a string, a number, a parsed datetime, or NA. -/
inductive Val
  | vStr (s : String)
  | vInt (n : Int)
  | vDate (d : Int)
  | vNA
deriving DecidableEq

open Val Dtype

/-- A pandas DataFrame: named, dtyped columns and position-aligned rows. -/
structure Table where
  header : List (String × Dtype)
  rows : List (List Val)
deriving DecidableEq

/-- Cell of row r in the column at position i (NA when out of range). -/
def cellAt (r : List Val) (i : Nat) : Val := r.getD i vNA

/-- Drop leading and trailing whitespace, as Python str.strip at line 34. -/
def trimChars (cs : List Char) : List Char :=
  ((cs.dropWhile Char.isWhitespace).reverse.dropWhile Char.isWhitespace).reverse

/-- Replace a space by an underscore, as str.replace(" ", "_") at line 34. -/
def sepToUnderscore (c : Char) : Char := if c = ' ' then '_' else c

/-- Column-name normalization of line 34:
df.columns.str.strip().str.replace(" ", "_").str.lower(). -/
def normName (s : String) : String :=
  String.mk (((trimChars s.toList).map sepToUnderscore).map Char.toLower)

/-- Python str.lower(), as col.lower() at lines 95 and 96. -/
def strLower (s : String) : String := String.mk (s.toList.map Char.toLower)

/-- Whether the pattern is an initial run of the character list. -/
def strLeads : List Char → List Char → Bool
  | _, [] => true
  | [], _ :: _ => false
  | a :: s, b :: p => decide (a = b) && strLeads s p

/-- Whether the pattern occurs contiguously in the character list. -/
def strHasSub : List Char → List Char → Bool
  | [], p => p.isEmpty
  | a :: s, p => strLeads (a :: s) p || strHasSub s p

/-- Python substring test, the operator pat in s of lines 38 to 41, 95, 96. -/
def strContains (s pat : String) : Bool := strHasSub s.toList pat.toList

/-- Names of the columns of a table, in column order. -/
def colNames (t : Table) : List String := t.header.map Prod.fst

/-- Line 38: [col for col in df.columns if "income" in col]. -/
def possible_income (t : Table) : List String :=
  (colNames t).filter (fun c => strContains c "income")

/-- Line 39: [col for col in df.columns if "gender" in col]. -/
def possible_gender (t : Table) : List String :=
  (colNames t).filter (fun c => strContains c "gender")

/-- Line 40: [col for col in df.columns if "neigh" in col or "municipality" in col]. -/
def possible_neigh (t : Table) : List String :=
  (colNames t).filter (fun c => strContains c "neigh" || strContains c "municipality")

/-- Line 41: [col for col in df.columns if "year" in col or "month" in col or "date" in col]. -/
def possible_time (t : Table) : List String :=
  (colNames t).filter (fun c => strContains c "year" || strContains c "month" || strContains c "date")

/-- Line 95: [col for col in df.columns if "lat" in col.lower()]. -/
def lat_cols (t : Table) : List String :=
  (colNames t).filter (fun c => strContains (strLower c) "lat")

/-- Line 96: [col for col in df.columns if "lon" in col.lower() or "lng" in col.lower()]. -/
def lon_cols (t : Table) : List String :=
  (colNames t).filter (fun c => strContains (strLower c) "lon" || strContains (strLower c) "lng")

/-- ColumnRoleMap of the spec: at most one column per semantic role. -/
structure RoleMap where
  income : Option String
  gender : Option String
  region : Option String
  time : Option String
  latitude : Option String
  longitude : Option String
deriving DecidableEq

/-- Role inference as the source performs it: the first element of each
candidate list (lines 45, 51, 57, 63, 99), no column when the list is empty. -/
def infer_roles (t : Table) : RoleMap :=
  { income := (possible_income t).head?
    gender := (possible_gender t).head?
    region := (possible_neigh t).head?
    time := (possible_time t).head?
    latitude := (lat_cols t).head?
    longitude := (lon_cols t).head? }

/-- Column renaming of line 34, applied to every header entry. -/
def cleanCols (t : Table) : Table :=
  { header := t.header.map (fun h => (normName h.1, h.2)), rows := t.rows }

/-- Line 35: df.dropna(how="all") removes the rows all of whose cells are NA. -/
def dropAllNaRows (t : Table) : Table :=
  { header := t.header, rows := t.rows.filter (fun r => !(r.all (fun v => decide (v = vNA)))) }

/-- Position of the first column with the given name, as pandas resolves a
column label to its (first) position. -/
def idxOfCol : List (String × Dtype) → String → Option Nat
  | [], _ => none
  | h :: hs, c => if h.1 = c then some 0 else (idxOfCol hs c).map (· + 1)

/-- Dtype of the column with the given name, as df[col].dtype at line 64. -/
def dtypeAtName (t : Table) (c : String) : Option Dtype :=
  (idxOfCol t.header c).bind (fun i => (t.header.get? i).map Prod.snd)

/-- FilterSpec: the accepted-value sets selected in the three categorical
multiselects (lines 47, 53, 59) and the time range selected in the slider
(line 69). -/
structure FilterSpec where
  income : List Val
  gender : List Val
  region : List Val
  lo : Val
  hi : Val
deriving DecidableEq

/-- Parse of one ISO yyyy-mm-dd date; the model of what pd.to_datetime at
line 65 accepts, with every other string coerced to NA. -/
def parseDateChars (cs : List Char) : Option Int :=
  match (cs.splitOn '-').map (fun p => if p.isEmpty then none else
      p.foldl (fun acc c => acc.bind (fun a => if c.isDigit then some (a * 10 + (c.toNat - 48)) else none)) (some 0)) with
  | [some y, some m, some d] =>
    if 1 ≤ m ∧ m ≤ 12 ∧ 1 ≤ d ∧ d ≤ 31 then some ((y : Int) * 10000 + m * 100 + d) else none
  | _ => none

/-- Coercion of one cell by pd.to_datetime(..., errors="coerce") at line 65:
a parseable string becomes a datetime, anything unparseable becomes NA. -/
def coerceVal : Val → Val
  | vStr s => match parseDateChars s.toList with
    | some d => vDate d
    | none => vNA
  | vInt n => vDate n
  | vDate d => vDate d
  | vNA => vNA

/-- Dtype of the column at a position (pandas columns always have one; the
default covers only out-of-range indexes the source never produces). -/
def dtypeAtIdx (hs : List (String × Dtype)) (i : Nat) : Dtype :=
  (hs.getD i ("", Dtype.object)).2

/-- Pandas Series.isin comparison of one cell against one accepted value,
which depends on the column dtype: on a datetime64 column the accepted
values are converted like the column itself was (DatetimeArray conversion
parses date strings exactly as pd.to_datetime does, and a value that does
not convert simply matches nothing), so a coerced datetime cell still
matches the string it was parsed from; on every other dtype isin is plain
element equality. -/
def isinMatch (dt : Dtype) (v w : Val) : Bool :=
  match dt with
  | Dtype.datetime64 =>
    decide (v = w) || (decide (coerceVal w ≠ vNA) && decide (v = coerceVal w))
  | _ => decide (v = w)

/-- The one categorical filter statement, lines 48, 54 and 60:
df = df[df[col].isin(selected)], with isin comparing under the column's
dtype. -/
def isinFilterAt (t : Table) (c : String) (sel : List Val) : Table :=
  match idxOfCol t.header c with
  | none => t
  | some i =>
    { header := t.header,
      rows := t.rows.filter
        (fun r => sel.any (fun w => isinMatch (dtypeAtIdx t.header i) (cellAt r i) w)) }

/-- One guarded categorical filter block (lines 44 to 60): when the candidate
list is empty the block is skipped, otherwise its first column filters. -/
def filterCat (t : Table) (cols : List String) (sel : List Val) : Table :=
  match cols with
  | [] => t
  | c :: _ => isinFilterAt t c sel

/-- Coercion of the cell at position i of one row. -/
def coerceRow (i : Nat) (r : List Val) : List Val := r.set i (coerceVal (cellAt r i))

/-- Line 65: df[time_col] = pd.to_datetime(df[time_col], errors="coerce"),
an in-place column assignment that also turns the column dtype into
datetime64. -/
def coerceAt (t : Table) (c : String) : Table :=
  match idxOfCol t.header c with
  | none => t
  | some i =>
    { header := t.header.set i (c, Dtype.datetime64), rows := t.rows.map (coerceRow i) }

/-- Line 66: df = df.dropna(subset=[time_col]). -/
def dropNaAt (t : Table) (c : String) : Table :=
  match idxOfCol t.header c with
  | none => t
  | some i => { header := t.header, rows := t.rows.filter (fun r => decide (cellAt r i ≠ vNA)) }

/-- Ordering used by the comparisons of line 70; pandas compares values of
the column dtype and any comparison against NA (NaT) is false. -/
def valLe : Val → Val → Bool
  | vInt a, vInt b => decide (a ≤ b)
  | vDate a, vDate b => decide (a ≤ b)
  | _, _ => false

/-- Line 70: df = df[(df[time_col] >= lo) & (df[time_col] <= hi)]. -/
def rangeAt (t : Table) (c : String) (lo hi : Val) : Table :=
  match idxOfCol t.header c with
  | none => t
  | some i =>
    { header := t.header, rows := t.rows.filter (fun r => valLe lo (cellAt r i) && valLe (cellAt r i) hi) }

/-- The time filter block, lines 62 to 70: coerce the first time column when
its dtype is object, drop the rows whose time cell is NA, keep the rows whose
time cell lies in the selected inclusive range. -/
def timeStage (t : Table) (cols : List String) (lo hi : Val) : Table :=
  match cols with
  | [] => t
  | c :: _ =>
    let t1 := if dtypeAtName t c = some Dtype.object then coerceAt t c else t
    rangeAt (dropNaAt t1 c) c lo hi

/-- Filter application of lines 44 to 70: the four guarded blocks in source
order income, gender, region, time, with the candidate lists computed from
the incoming (cleaned) table as lines 38 to 41 do. -/
def applyFilters (t : Table) (f : FilterSpec) : Table :=
  let t1 := filterCat t (possible_income t) f.income
  let t2 := filterCat t1 (possible_gender t) f.gender
  let t3 := filterCat t2 (possible_neigh t) f.region
  timeStage t3 (possible_time t) f.lo f.hi

/-- Distinct values in first-occurrence order, with the already-seen values
accumulated. -/
def uniqueAux : List Val → List Val → List Val
  | _, [] => []
  | seen, v :: vs => if v ∈ seen then uniqueAux seen vs else v :: uniqueAux (v :: seen) vs

/-- Distinct values in first-occurrence order, as pandas Series.unique. -/
def uniqueList (l : List Val) : List Val := uniqueAux [] l

/-- Option list offered for a categorical role, lines 46, 52 and 58:
df[col].dropna().unique().tolist() on the current table. -/
def roleOptions (t : Table) (cols : List String) : List Val :=
  match cols with
  | [] => []
  | c :: _ =>
    match idxOfCol t.header c with
    | none => []
    | some i => uniqueList ((t.rows.map (fun r => cellAt r i)).filter (fun v => decide (v ≠ vNA)))

/-- Minimum under valLe, the model of Series.min at line 67 on a column of a
single value kind. -/
def valMinOf (vs : List Val) : Option Val :=
  vs.foldl (fun acc v => match acc with
    | none => some v
    | some a => if valLe v a then some v else some a) none

/-- Maximum under valLe, the model of Series.max at line 68. -/
def valMaxOf (vs : List Val) : Option Val :=
  vs.foldl (fun acc v => match acc with
    | none => some v
    | some a => if valLe a v then some v else some a) none

/-- Bounds the slider of line 69 is built from: min and max of the time
column after coercion and dropna, none when no time column or no row. -/
def timeBoundsOf (t : Table) (cols : List String) : Option (Val × Val) :=
  match cols with
  | [] => none
  | c :: _ =>
    let t1 := if dtypeAtName t c = some Dtype.object then coerceAt t c else t
    let t2 := dropNaAt t1 c
    match idxOfCol t2.header c with
    | none => none
    | some i =>
      match valMinOf (t2.rows.map (fun r => cellAt r i)), valMaxOf (t2.rows.map (fun r => cellAt r i)) with
      | some a, some b => some (a, b)
      | _, _ => none

/-- Everything the sidebar block (lines 44 to 70) hands to the presentation
layer: the option lists of the three multiselects, the slider bounds, and the
resulting filtered table. -/
structure SidebarOut where
  incomeOpts : List Val
  genderOpts : List Val
  regionOpts : List Val
  timeBounds : Option (Val × Val)
  result : Table
deriving DecidableEq

/-- Faithful transcription of lines 44 to 70: each block computes its widget
options from the table as filtered by the preceding blocks, then filters. -/
def sidebar (t : Table) (f : FilterSpec) : SidebarOut :=
  let t1 := filterCat t (possible_income t) f.income
  let t2 := filterCat t1 (possible_gender t) f.gender
  let t3 := filterCat t2 (possible_neigh t) f.region
  { incomeOpts := roleOptions t (possible_income t)
    genderOpts := roleOptions t1 (possible_gender t)
    regionOpts := roleOptions t2 (possible_neigh t)
    timeBounds := timeBoundsOf t3 (possible_time t)
    result := timeStage t3 (possible_time t) f.lo f.hi }

/-- Numeric columns, line 80: df.select_dtypes(include=["float64", "int64"]).columns;
these are the only names the two axis select boxes offer. -/
def numericCols (t : Table) : List String :=
  (t.header.filter (fun h => decide (h.2 = Dtype.float64) || decide (h.2 = Dtype.int64))).map Prod.fst

/-- Chart construction, the px.scatter call of lines 84 to 92 (and lines 40
to 48 of src/dashboard.py): plotly draws one marker per row of the frame from
the two named columns, with no aggregation; naming an absent column raises an
exception, which the handler at line 105 catches. -/
def build_chart (t : Table) (x y : String) : Except String (List (Val × Val)) :=
  match idxOfCol t.header x, idxOfCol t.header y with
  | some i, some j => Except.ok (t.rows.map (fun r => (cellAt r i, cellAt r j)))
  | _, _ => Except.error "column not found"

/-- Modelled from the spec: the point rendering done by st.map at line 99 is
presentation-layer code that is not in src/; section 4.4 of the spec states
that rows with non-numeric or out-of-range coordinates (lat outside
[-90, 90], lon outside [-180, 180]) are dropped silently. -/
def pointOk : Val × Val → Option (Int × Int)
  | (vInt a, vInt b) =>
    if -90 ≤ a ∧ a ≤ 90 ∧ -180 ≤ b ∧ b ≤ 180 then some (a, b) else none
  | _ => none

/-- Renderer: the admissible coordinate pairs, in row order. -/
def renderMapPoints (pts : List (Val × Val)) : List (Int × Int) :=
  pts.filterMap pointOk

/-- Geographic projection, lines 95 to 99: skipped (no points) unless both a
latitude and a longitude column are detected; otherwise the first of each is
projected and handed to the renderer. -/
def build_points (t : Table) : List (Int × Int) :=
  match lat_cols t, lon_cols t with
  | la :: _, lo :: _ =>
    match idxOfCol t.header la, idxOfCol t.header lo with
    | some i, some j => renderMapPoints (t.rows.map (fun r => (cellAt r i, cellAt r j)))
    | _, _ => []
  | _, _ => []

/-- What one interaction cycle leaves behind for the presentation layer. -/
structure SessionView where
  roles : RoleMap
  filtered : Table
  chart : Option (List (Val × Val))
  shown : Option Table
  errMsg : Option String
deriving DecidableEq

/-- One interaction cycle of the try/except body (lines 30 to 106): clean,
infer roles, filter, then attempt the chart; an exception from the chart call
skips the rest of the body and line 105 converts it into a user-facing
message, while the filtered table and role map derived earlier in the cycle
stand as computed. -/
def interaction (t : Table) (f : FilterSpec) (x y : String) : SessionView :=
  match build_chart (applyFilters (dropAllNaRows (cleanCols t)) f) x y with
  | Except.ok pts =>
    { roles := infer_roles (dropAllNaRows (cleanCols t))
      filtered := applyFilters (dropAllNaRows (cleanCols t)) f
      chart := some pts
      shown := some (applyFilters (dropAllNaRows (cleanCols t)) f)
      errMsg := none }
  | Except.error e =>
    { roles := infer_roles (dropAllNaRows (cleanCols t))
      filtered := applyFilters (dropAllNaRows (cleanCols t)) f
      chart := none
      shown := none
      errMsg := some ("Error processing dataset: " ++ e) }

/-- Python heap model for the single df variable: orig is the object
pd.read_csv returned, cur the object df is currently bound to, and aliased
records whether df still refers to the original object. -/
structure PyState where
  orig : Table
  cur : Table
  aliased : Bool
deriving DecidableEq

/-- An in-place statement (df.columns = ..., df.dropna(inplace=True),
df[c] = ...) updates the object df refers to; while df still aliases the
original, the original changes with it. -/
def inPlace (g : Table → Table) (s : PyState) : PyState :=
  { orig := if s.aliased then g s.orig else s.orig, cur := g s.cur, aliased := s.aliased }

/-- A rebinding statement (df = expr) makes df refer to a fresh object and
leaves the original object alone from then on. -/
def rebind (g : Table → Table) (s : PyState) : PyState :=
  { orig := s.orig, cur := g s.cur, aliased := false }

/-- A guarded categorical filter block as a state transformer: skipped when
its candidate list is empty, otherwise one rebinding filter statement on the
first candidate. -/
def catStepState (cols : List String) (g : String → Table → Table) (s : PyState) : PyState :=
  match cols with
  | [] => s
  | c :: _ => rebind (g c) s

/-- The time filter block as a state transformer: the coercion statement of
line 65 is the one in-place write, the dropna of line 66 and the mask of
line 70 rebind df. -/
def timeStepState (t : Table) (f : FilterSpec) (s : PyState) : PyState :=
  match possible_time t with
  | [] => s
  | c :: _ =>
    let s6 := if dtypeAtName s.cur c = some Dtype.object then inPlace (fun u => coerceAt u c) s else s
    let s7 := rebind (fun u => dropNaAt u c) s6
    rebind (fun u => rangeAt u c f.lo f.hi) s7

/-- Lines 38 to 70 on an already-cleaned state: the four filter blocks, with
the candidate lists computed from the cleaned table t. -/
def scriptAfterClean (t : Table) (f : FilterSpec) (s : PyState) : PyState :=
  timeStepState t f
    (catStepState (possible_neigh t) (fun c u => isinFilterAt u c f.region)
      (catStepState (possible_gender t) (fun c u => isinFilterAt u c f.gender)
        (catStepState (possible_income t) (fun c u => isinFilterAt u c f.income) s)))

/-- The script of lines 31 to 70 run on the freshly loaded table, tracking
which statements mutate in place (lines 34, 35, 65) and which rebind df
(lines 48, 54, 60, 66, 70). -/
def runScript (t : Table) (f : FilterSpec) : PyState :=
  scriptAfterClean (dropAllNaRows (cleanCols t)) f
    (inPlace dropAllNaRows (inPlace cleanCols { orig := t, cur := t, aliased := true }))

instance {ε α : Type} [DecidableEq ε] [DecidableEq α] : DecidableEq (Except ε α) := fun x y =>
  match x, y with
  | Except.ok a, Except.ok b =>
    if h : a = b then isTrue (by rw [h]) else isFalse (fun hc => h (Except.ok.inj hc))
  | Except.error a, Except.error b =>
    if h : a = b then isTrue (by rw [h]) else isFalse (fun hc => h (Except.error.inj hc))
  | Except.ok _, Except.error _ => isFalse (fun hc => Except.noConfusion hc)
  | Except.error _, Except.ok _ => isFalse (fun hc => Except.noConfusion hc)

/-- Row predicate of one guarded categorical block: a row passes when the
block is skipped (no candidate column) or some accepted value isin-matches
its cell in the block's column under that column's dtype. -/
def memPredAt (hs : List (String × Dtype)) (cols : List String) (sel : List Val) (r : List Val) : Bool :=
  match cols with
  | [] => true
  | c :: _ =>
    match idxOfCol hs c with
    | none => true
    | some i => sel.any (fun w => isinMatch (dtypeAtIdx hs i) (cellAt r i) w)

/-- Conjunction of the three categorical filter predicates. -/
def catsPred (t : Table) (f : FilterSpec) (r : List Val) : Bool :=
  memPredAt t.header (possible_income t) f.income r &&
    (memPredAt t.header (possible_gender t) f.gender r &&
      memPredAt t.header (possible_neigh t) f.region r)

/-- Written from the spec wording of section 4.1: scan column names in their
existing order and select the first name satisfying the role's trigger
predicate; no match means the role is absent. -/
def specFirstMatch (names : List String) (p : String → Bool) : Option String :=
  match names with
  | [] => none
  | n :: ns => if p n then some n else specFirstMatch ns p

section Lemmas

open List

theorem idxOfCol_congr {hs ks : List (String × Dtype)}
    (h : hs.map Prod.fst = ks.map Prod.fst) (c : String) : idxOfCol hs c = idxOfCol ks c := by
  induction hs generalizing ks with
  | nil => cases ks with
    | nil => rfl
    | cons k ks => simp at h
  | cons a hs ih =>
    cases ks with
    | nil => simp at h
    | cons k ks =>
      simp only [List.map_cons, List.cons.injEq] at h
      simp only [idxOfCol, h.1, ih h.2]

theorem idxOfCol_isSome_of_mem {hs : List (String × Dtype)} {c : String}
    (h : c ∈ hs.map Prod.fst) : (idxOfCol hs c).isSome := by
  induction hs with
  | nil => simp at h
  | cons a hs ih =>
    simp only [List.map_cons, List.mem_cons] at h
    by_cases hc : a.1 = c
    · simp [idxOfCol, hc]
    · rcases h with h | h
      · exact absurd h.symm hc
      · simp only [idxOfCol, if_neg hc]
        rcases Option.isSome_iff_exists.1 (ih h) with ⟨j, hj⟩
        simp [hj]

theorem set_preserves_names {hs : List (String × Dtype)} {c : String} {i : Nat}
    (h : idxOfCol hs c = some i) (d : Dtype) :
    (hs.set i (c, d)).map Prod.fst = hs.map Prod.fst := by
  induction hs generalizing i with
  | nil => simp [idxOfCol] at h
  | cons a hs ih =>
    by_cases hc : a.1 = c
    · simp only [idxOfCol, if_pos hc, Option.some.injEq] at h
      subst h
      simp [hc]
    · simp only [idxOfCol, if_neg hc] at h
      cases hj : idxOfCol hs c with
      | none => rw [hj] at h; simp at h
      | some j =>
        rw [hj] at h
        simp only [Option.map_some', Option.some.injEq] at h
        subst h
        simp [ih hj]

theorem filterCat_spec (t : Table) (cols : List String) (sel : List Val) :
    filterCat t cols sel = ⟨t.header, t.rows.filter (memPredAt t.header cols sel)⟩ := by
  cases cols with
  | nil =>
    have hmem : t.rows.filter (memPredAt t.header [] sel) = t.rows :=
      List.filter_eq_self.2 (fun a _ => rfl)
    show t = _
    rw [hmem]
  | cons c cs =>
    show isinFilterAt t c sel = _
    cases h : idxOfCol t.header c with
    | none =>
      have hmem : ∀ a ∈ t.rows, memPredAt t.header (c :: cs) sel a = true := by
        intro a _
        simp only [memPredAt, h]
      simp only [isinFilterAt, h]
      rw [List.filter_eq_self.2 hmem]
    | some i =>
      simp only [isinFilterAt, h]
      congr 1
      apply List.filter_congr
      intro r _
      simp only [memPredAt, h]

theorem cats_spec (t : Table) (f : FilterSpec) :
    filterCat (filterCat (filterCat t (possible_income t) f.income)
        (possible_gender t) f.gender) (possible_neigh t) f.region
      = ⟨t.header, t.rows.filter (catsPred t f)⟩ := by
  rw [filterCat_spec, filterCat_spec, filterCat_spec]
  simp only
  congr 1
  rw [List.filter_filter, List.filter_filter]
  apply List.filter_congr
  intro r _
  unfold catsPred
  cases memPredAt t.header (possible_income t) f.income r <;>
    cases memPredAt t.header (possible_gender t) f.gender r <;>
      cases memPredAt t.header (possible_neigh t) f.region r <;> rfl

theorem coerceAt_spec (t : Table) (c : String) (i : Nat)
    (h : idxOfCol t.header c = some i) :
    coerceAt t c = ⟨t.header.set i (c, Dtype.datetime64), t.rows.map (coerceRow i)⟩ := by
  unfold coerceAt
  rw [h]

theorem dropNaAt_spec (t : Table) (c : String) (i : Nat)
    (h : idxOfCol t.header c = some i) :
    dropNaAt t c = ⟨t.header, t.rows.filter (fun r => decide (cellAt r i ≠ vNA))⟩ := by
  unfold dropNaAt
  rw [h]

theorem rangeAt_spec (t : Table) (c : String) (i : Nat) (lo hi : Val)
    (h : idxOfCol t.header c = some i) :
    rangeAt t c lo hi =
      ⟨t.header, t.rows.filter (fun r => valLe lo (cellAt r i) && valLe (cellAt r i) hi)⟩ := by
  unfold rangeAt
  rw [h]

theorem timeStage_spec (t : Table) (c : String) (i : Nat) (cs : List String) (lo hi : Val)
    (hidx : idxOfCol t.header c = some i) :
    timeStage t (c :: cs) lo hi =
      ⟨(if dtypeAtName t c = some Dtype.object then t.header.set i (c, Dtype.datetime64) else t.header),
        ((if dtypeAtName t c = some Dtype.object then t.rows.map (coerceRow i) else t.rows).filter
            (fun r => decide (cellAt r i ≠ vNA))).filter
          (fun r => valLe lo (cellAt r i) && valLe (cellAt r i) hi)⟩ := by
  unfold timeStage
  by_cases hdt : dtypeAtName t c = some Dtype.object
  · have hnames : (t.header.set i (c, Dtype.datetime64)).map Prod.fst = t.header.map Prod.fst :=
      set_preserves_names hidx _
    have hidx2 : idxOfCol (t.header.set i (c, Dtype.datetime64)) c = some i :=
      (idxOfCol_congr hnames c).trans hidx
    simp only [if_pos hdt]
    rw [coerceAt_spec t c i hidx]
    rw [dropNaAt_spec ⟨t.header.set i (c, Dtype.datetime64), t.rows.map (coerceRow i)⟩ c i hidx2]
    rw [rangeAt_spec ⟨t.header.set i (c, Dtype.datetime64),
      (t.rows.map (coerceRow i)).filter (fun r => decide (cellAt r i ≠ vNA))⟩ c i lo hi hidx2]
  · simp only [if_neg hdt]
    rw [dropNaAt_spec t c i hidx]
    rw [rangeAt_spec ⟨t.header, t.rows.filter (fun r => decide (cellAt r i ≠ vNA))⟩ c i lo hi hidx]

theorem dropNaAt_none {t : Table} {c : String} (h : idxOfCol t.header c = none) :
    dropNaAt t c = t := by
  simp only [dropNaAt, h]

theorem rangeAt_none {t : Table} {c : String} (lo hi : Val) (h : idxOfCol t.header c = none) :
    rangeAt t c lo hi = t := by
  simp only [rangeAt, h]

theorem dtypeAtName_none {t : Table} {c : String} (h : idxOfCol t.header c = none) :
    dtypeAtName t c = none := by
  simp [dtypeAtName, h]

theorem timeStage_none_idx (t : Table) (c : String) (cs : List String) (lo hi : Val)
    (h : idxOfCol t.header c = none) : timeStage t (c :: cs) lo hi = t := by
  show rangeAt (dropNaAt (if dtypeAtName t c = some Dtype.object then coerceAt t c else t) c) c lo hi = t
  rw [dtypeAtName_none h]
  rw [if_neg (by simp)]
  rw [dropNaAt_none h, rangeAt_none lo hi h]

theorem colNames_filterCat (t : Table) (cols : List String) (sel : List Val) :
    colNames (filterCat t cols sel) = colNames t := by
  rw [filterCat_spec]
  rfl

theorem colNames_timeStage (t : Table) (cols : List String) (lo hi : Val) :
    colNames (timeStage t cols lo hi) = colNames t := by
  cases cols with
  | nil => rfl
  | cons c cs =>
    cases h : idxOfCol t.header c with
    | none => rw [timeStage_none_idx t c cs lo hi h]
    | some i =>
      rw [timeStage_spec t c i cs lo hi h]
      by_cases hdt : dtypeAtName t c = some Dtype.object
      · simp only [if_pos hdt]
        exact set_preserves_names h _
      · simp only [if_neg hdt]
        rfl

theorem colNames_applyFilters (t : Table) (f : FilterSpec) :
    colNames (applyFilters t f) = colNames t := by
  show colNames (timeStage (filterCat (filterCat (filterCat t (possible_income t) f.income)
    (possible_gender t) f.gender) (possible_neigh t) f.region) (possible_time t) f.lo f.hi) = colNames t
  rw [colNames_timeStage, colNames_filterCat, colNames_filterCat, colNames_filterCat]

theorem specFirstMatch_eq_head_filter (ns : List String) (p : String → Bool) :
    specFirstMatch ns p = (ns.filter p).head? := by
  induction ns with
  | nil => rfl
  | cons n ns ih =>
    by_cases h : p n
    · simp [specFirstMatch, List.filter_cons, h]
    · simp [specFirstMatch, List.filter_cons, h, ih]

theorem char_toNat_ofNat_of_lt {n : Nat} (h : n < 55296) : (Char.ofNat n).toNat = n := by
  rw [Char.ofNat, dif_pos (Or.inl h)]
  rfl

theorem toLower_toLower (c : Char) : Char.toLower (Char.toLower c) = Char.toLower c := by
  by_cases h : Char.toNat c ≥ 65 ∧ Char.toNat c ≤ 90
  · have hlt : Char.toNat c + 32 < 55296 := by omega
    have h1 : Char.toLower c = Char.ofNat (Char.toNat c + 32) := by
      unfold Char.toLower
      rw [if_pos h]
    rw [h1]
    unfold Char.toLower
    simp only [char_toNat_ofNat_of_lt hlt]
    rw [if_neg (by omega)]
  · have h1 : Char.toLower c = c := by
      unfold Char.toLower
      rw [if_neg h]
    rw [h1, h1]

theorem strLower_normName (s : String) : strLower (normName s) = normName s := by
  unfold strLower normName
  show String.mk ((((trimChars s.toList).map sepToUnderscore).map Char.toLower).map Char.toLower) = _
  have hcomp : Char.toLower ∘ Char.toLower = Char.toLower := funext toLower_toLower
  rw [List.map_map, hcomp]

theorem colNames_cleanCols (t : Table) :
    colNames (cleanCols t) = (colNames t).map normName := by
  unfold cleanCols colNames
  simp [List.map_map]

theorem lat_cols_clean (t : Table) :
    lat_cols (cleanCols t) =
      ((colNames t).map normName).filter (fun c => strContains c "lat") := by
  unfold lat_cols
  rw [colNames_cleanCols]
  apply List.filter_congr
  intro c hc
  rcases List.mem_map.1 hc with ⟨x, _, rfl⟩
  rw [strLower_normName]

theorem lon_cols_clean (t : Table) :
    lon_cols (cleanCols t) =
      ((colNames t).map normName).filter (fun c => strContains c "lon" || strContains c "lng") := by
  unfold lon_cols
  rw [colNames_cleanCols]
  apply List.filter_congr
  intro c hc
  rcases List.mem_map.1 hc with ⟨x, _, rfl⟩
  rw [strLower_normName]

theorem timeStage_rows_nil (t : Table) (cols : List String) (lo hi : Val)
    (h : t.rows = []) : (timeStage t cols lo hi).rows = [] := by
  cases cols with
  | nil => exact h
  | cons c cs =>
    cases hidx : idxOfCol t.header c with
    | none =>
      rw [timeStage_none_idx t c cs lo hi hidx]
      exact h
    | some i =>
      rw [timeStage_spec t c i cs lo hi hidx]
      simp [h]

theorem memPredAt_nil_sel {t : Table} {cols : List String} (hne : cols ≠ [])
    (hsub : ∀ c ∈ cols, c ∈ colNames t) (r : List Val) :
    memPredAt t.header cols [] r = false := by
  cases cols with
  | nil => exact absurd rfl hne
  | cons c cs =>
    have hc : c ∈ t.header.map Prod.fst := hsub c (List.mem_cons_self c cs)
    rcases Option.isSome_iff_exists.1 (idxOfCol_isSome_of_mem hc) with ⟨i, hi⟩
    simp [memPredAt, hi]

theorem applyFilters_eq_timeStage_cats (t : Table) (f : FilterSpec) :
    applyFilters t f =
      timeStage ⟨t.header, t.rows.filter (catsPred t f)⟩ (possible_time t) f.lo f.hi := by
  show timeStage (filterCat (filterCat (filterCat t (possible_income t) f.income)
    (possible_gender t) f.gender) (possible_neigh t) f.region) (possible_time t) f.lo f.hi = _
  rw [cats_spec]

theorem timeStage_rows_object (t : Table) (c : String) (i : Nat) (cs : List String) (lo hi : Val)
    (hidx : idxOfCol t.header c = some i) (hdt : dtypeAtName t c = some Dtype.object) :
    (timeStage t (c :: cs) lo hi).rows =
      ((t.rows.map (coerceRow i)).filter (fun r => decide (cellAt r i ≠ vNA))).filter
        (fun r => valLe lo (cellAt r i) && valLe (cellAt r i) hi) := by
  rw [timeStage_spec t c i cs lo hi hidx]
  show ((if dtypeAtName t c = some Dtype.object then t.rows.map (coerceRow i) else t.rows).filter
      (fun r => decide (cellAt r i ≠ vNA))).filter
    (fun r => valLe lo (cellAt r i) && valLe (cellAt r i) hi) = _
  rw [if_pos hdt]

theorem timeStage_rows_not_object (t : Table) (c : String) (i : Nat) (cs : List String)
    (lo hi : Val) (hidx : idxOfCol t.header c = some i)
    (hdt : dtypeAtName t c ≠ some Dtype.object) :
    (timeStage t (c :: cs) lo hi).rows =
      (t.rows.filter (fun r => decide (cellAt r i ≠ vNA))).filter
        (fun r => valLe lo (cellAt r i) && valLe (cellAt r i) hi) := by
  rw [timeStage_spec t c i cs lo hi hidx]
  show ((if dtypeAtName t c = some Dtype.object then t.rows.map (coerceRow i) else t.rows).filter
      (fun r => decide (cellAt r i ≠ vNA))).filter
    (fun r => valLe lo (cellAt r i) && valLe (cellAt r i) hi) = _
  rw [if_neg hdt]

end Lemmas

/-- C3: the four filter blocks compose by logical AND — the result equals
the time stage applied to the table kept by the conjunction of the three
categorical predicates (and is exactly that conjunction-filtered table when
no time role is mapped); an empty accepted-value set for a mapped
categorical role yields an empty table, and an inverted time range
(max strictly below min) yields an empty table, with every case a total
function application rather than an error. -/
theorem c3_filters_conjunction_and_degenerate_cases :
    (∀ (t : Table) (f : FilterSpec),
        applyFilters t f =
          timeStage ⟨t.header, t.rows.filter (catsPred t f)⟩ (possible_time t) f.lo f.hi)
    ∧ (∀ (t : Table) (f : FilterSpec), possible_time t = [] →
        (applyFilters t f).rows = t.rows.filter (catsPred t f))
    ∧ (∀ (t : Table) (f : FilterSpec),
        ((f.income = [] ∧ possible_income t ≠ []) ∨ (f.gender = [] ∧ possible_gender t ≠ []) ∨
          (f.region = [] ∧ possible_neigh t ≠ [])) → (applyFilters t f).rows = [])
    ∧ (∀ (t : Table) (f : FilterSpec) (a b : Int), f.lo = vDate a → f.hi = vDate b → b < a →
        possible_time t ≠ [] → (applyFilters t f).rows = []) := by
  have hmain := applyFilters_eq_timeStage_cats
  refine ⟨hmain, ?_, ?_, ?_⟩
  · intro t f h
    rw [hmain t f, h]
    rfl
  · intro t f h
    rw [hmain t f]
    apply timeStage_rows_nil
    show t.rows.filter (catsPred t f) = []
    apply List.filter_eq_nil_iff.2
    intro r hr
    rcases h with ⟨hsel, hcols⟩ | ⟨hsel, hcols⟩ | ⟨hsel, hcols⟩
    · unfold catsPred
      rw [hsel, memPredAt_nil_sel hcols (fun c hc => List.mem_of_mem_filter hc) r]
      simp
    · unfold catsPred
      rw [hsel, memPredAt_nil_sel hcols (fun c hc => List.mem_of_mem_filter hc) r]
      simp
    · unfold catsPred
      rw [hsel, memPredAt_nil_sel hcols (fun c hc => List.mem_of_mem_filter hc) r]
      simp
  · intro t f a b hlo hhi hba hne
    rw [hmain t f]
    cases hpt : possible_time t with
    | nil => exact absurd hpt hne
    | cons c cs =>
      have hc : c ∈ t.header.map Prod.fst := by
        have : c ∈ possible_time t := by rw [hpt]; exact List.mem_cons_self c cs
        exact List.mem_of_mem_filter this
      rcases Option.isSome_iff_exists.1 (idxOfCol_isSome_of_mem hc) with ⟨i, hi⟩
      rw [timeStage_spec ⟨t.header, List.filter (catsPred t f) t.rows⟩ c i cs f.lo f.hi hi]
      show List.filter _ _ = []
      apply List.filter_eq_nil_iff.2
      intro r hr hcontra
      rcases Bool.and_eq_true_iff.1 hcontra with ⟨h1, h2⟩
      rw [hlo] at h1
      rw [hhi] at h2
      cases hv : cellAt r i with
      | vDate d =>
        rw [hv] at h1 h2
        simp only [valLe, decide_eq_true_eq] at h1 h2
        omega
      | vStr s => rw [hv] at h1; simp [valLe] at h1
      | vInt n => rw [hv] at h1; simp [valLe] at h1
      | vNA => rw [hv] at h1; simp [valLe] at h1

/-- Table with an income column, for the degenerate-filter witnesses. -/
def emptySelT : Table :=
  ⟨[("income_group", Dtype.object), ("date", Dtype.object)],
    [[vStr "low", vStr "2020-01-01"], [vStr "high", vStr "2020-01-02"]]⟩

/-- Witness for C3: with the income accepted-value set emptied the result
has no rows, and with an inverted time range the result has no rows; neither
case is an error. -/
theorem c3_filters_conjunction_and_degenerate_cases_witness :
    (applyFilters emptySelT ⟨[], [vStr "low", vStr "high"], [], vDate 20200101, vDate 20200102⟩).rows = []
    ∧ (applyFilters emptySelT
        ⟨[vStr "low", vStr "high"], [], [], vDate 20200102, vDate 20200101⟩).rows = [] :=
  ⟨c3_filters_conjunction_and_degenerate_cases.2.2.1 emptySelT _
      (Or.inl ⟨rfl, by decide⟩),
    c3_filters_conjunction_and_degenerate_cases.2.2.2 emptySelT _ 20200102 20200101 rfl rfl
      (by omega) (by decide)⟩

theorem valLe_trans {a b c : Val} (h1 : valLe a b = true) (h2 : valLe b c = true) :
    valLe a c = true := by
  cases a <;> cases b <;> cases c <;> simp_all [valLe] <;> omega

theorem memPredAt_mono {hs : List (String × Dtype)} {cols : List String}
    {sel sel' : List Val} (hsub : ∀ v ∈ sel', v ∈ sel) (r : List Val)
    (h : memPredAt hs cols sel' r = true) : memPredAt hs cols sel r = true := by
  cases cols with
  | nil => rfl
  | cons c cs =>
    cases hidx : idxOfCol hs c with
    | none => simp [memPredAt, hidx]
    | some i =>
      simp only [memPredAt, hidx] at h ⊢
      rcases List.any_eq_true.1 h with ⟨w, hw, hmatch⟩
      exact List.any_eq_true.2 ⟨w, hsub w hw, hmatch⟩

theorem catsPred_mono {t : Table} {f f' : FilterSpec}
    (hinc : ∀ v ∈ f'.income, v ∈ f.income)
    (hgen : ∀ v ∈ f'.gender, v ∈ f.gender)
    (hreg : ∀ v ∈ f'.region, v ∈ f.region) (r : List Val)
    (h : catsPred t f' r = true) : catsPred t f r = true := by
  unfold catsPred at h ⊢
  rcases Bool.and_eq_true_iff.1 h with ⟨h1, h23⟩
  rcases Bool.and_eq_true_iff.1 h23 with ⟨h2, h3⟩
  rw [memPredAt_mono hinc r h1, memPredAt_mono hgen r h2, memPredAt_mono hreg r h3]
  rfl

/-- C7: filtering is monotone in the FilterSpec — shrinking the three
accepted-value sets and keeping or narrowing the time range never increases
the number of surviving rows. -/
theorem c7_filtering_monotone (t : Table) (f f' : FilterSpec)
    (hinc : ∀ v ∈ f'.income, v ∈ f.income)
    (hgen : ∀ v ∈ f'.gender, v ∈ f.gender)
    (hreg : ∀ v ∈ f'.region, v ∈ f.region)
    (hrange : (f'.lo = f.lo ∧ f'.hi = f.hi) ∨
      (valLe f.lo f'.lo = true ∧ valLe f'.hi f.hi = true)) :
    (applyFilters t f').rows.length ≤ (applyFilters t f).rows.length := by
  have himp : ∀ v : Val, (valLe f'.lo v && valLe v f'.hi) = true →
      (valLe f.lo v && valLe v f.hi) = true := by
    intro v hv
    rcases Bool.and_eq_true_iff.1 hv with ⟨hv1, hv2⟩
    rcases hrange with ⟨hl, hh⟩ | ⟨hl, hh⟩
    · rw [← hl, ← hh]
      exact hv
    · rw [Bool.and_eq_true_iff]
      exact ⟨valLe_trans hl hv1, valLe_trans hv2 hh⟩
  apply List.Sublist.length_le
  rw [applyFilters_eq_timeStage_cats t f', applyFilters_eq_timeStage_cats t f]
  have hcats : List.Sublist (t.rows.filter (catsPred t f')) (t.rows.filter (catsPred t f)) :=
    List.monotone_filter_right _ (fun r h => catsPred_mono hinc hgen hreg r h)
  cases hpt : possible_time t with
  | nil => exact hcats
  | cons c cs =>
    cases hidx : idxOfCol t.header c with
    | none =>
      rw [timeStage_none_idx ⟨t.header, t.rows.filter (catsPred t f')⟩ c cs f'.lo f'.hi hidx,
        timeStage_none_idx ⟨t.header, t.rows.filter (catsPred t f)⟩ c cs f.lo f.hi hidx]
      exact hcats
    | some i =>
      by_cases hdt : dtypeAtName t c = some Dtype.object
      · rw [timeStage_rows_object ⟨t.header, t.rows.filter (catsPred t f')⟩ c i cs f'.lo f'.hi
          hidx hdt]
        rw [timeStage_rows_object ⟨t.header, t.rows.filter (catsPred t f)⟩ c i cs f.lo f.hi
          hidx hdt]
        have h2 := List.Sublist.filter (fun r => decide (cellAt r i ≠ vNA))
          (List.Sublist.map (coerceRow i) hcats)
        exact List.Sublist.trans
          (List.Sublist.filter (fun r => valLe f'.lo (cellAt r i) && valLe (cellAt r i) f'.hi) h2)
          (List.monotone_filter_right _ (fun r h => himp (cellAt r i) h))
      · rw [timeStage_rows_not_object ⟨t.header, t.rows.filter (catsPred t f')⟩ c i cs f'.lo f'.hi
          hidx hdt]
        rw [timeStage_rows_not_object ⟨t.header, t.rows.filter (catsPred t f)⟩ c i cs f.lo f.hi
          hidx hdt]
        have h2 := List.Sublist.filter (fun r => decide (cellAt r i ≠ vNA)) hcats
        exact List.Sublist.trans
          (List.Sublist.filter (fun r => valLe f'.lo (cellAt r i) && valLe (cellAt r i) f'.hi) h2)
          (List.monotone_filter_right _ (fun r h => himp (cellAt r i) h))

/-- Witness for C7 at a concrete table: a smaller income selection together
with a narrower time range yields at most as many rows. -/
theorem c7_filtering_monotone_witness :
    (applyFilters emptySelT ⟨[vStr "low"], [], [], vDate 20200102, vDate 20200102⟩).rows.length ≤
      (applyFilters emptySelT
        ⟨[vStr "low", vStr "high"], [], [], vDate 20200101, vDate 20200102⟩).rows.length :=
  c7_filtering_monotone emptySelT
    ⟨[vStr "low", vStr "high"], [], [], vDate 20200101, vDate 20200102⟩
    ⟨[vStr "low"], [], [], vDate 20200102, vDate 20200102⟩
    (by decide) (by decide) (by decide) (Or.inr ⟨by decide, by decide⟩)

theorem catStepState_orig (cols : List String) (g : String → Table → Table) (s : PyState) :
    (catStepState cols g s).orig = s.orig := by
  cases cols <;> rfl

theorem catStepState_aliased (cols : List String) (g : String → Table → Table) (s : PyState)
    (h : s.aliased = false) : (catStepState cols g s).aliased = false := by
  cases cols with
  | nil => exact h
  | cons c cs => rfl

theorem catStepState_aliased_ne (cols : List String) (g : String → Table → Table) (s : PyState)
    (h : cols ≠ []) : (catStepState cols g s).aliased = false := by
  cases cols with
  | nil => exact absurd rfl h
  | cons c cs => rfl

theorem catStepState_cur_filter (cols : List String) (sel : List Val) (s : PyState) :
    (catStepState cols (fun c u => isinFilterAt u c sel) s).cur = filterCat s.cur cols sel := by
  cases cols <;> rfl

theorem timeStepState_orig (t : Table) (f : FilterSpec) (s : PyState)
    (h : s.aliased = false) : (timeStepState t f s).orig = s.orig := by
  unfold timeStepState
  cases possible_time t with
  | nil => rfl
  | cons c cs =>
    show (if dtypeAtName s.cur c = some Dtype.object then
        inPlace (fun u => coerceAt u c) s else s).orig = s.orig
    rw [apply_ite PyState.orig]
    simp [inPlace, h]

theorem timeStepState_cur (t : Table) (f : FilterSpec) (s : PyState) :
    (timeStepState t f s).cur = timeStage s.cur (possible_time t) f.lo f.hi := by
  unfold timeStepState timeStage
  cases possible_time t with
  | nil => rfl
  | cons c cs =>
    show rangeAt (dropNaAt (if dtypeAtName s.cur c = some Dtype.object then
        inPlace (fun u => coerceAt u c) s else s).cur c) c f.lo f.hi = _
    rw [apply_ite PyState.cur]
    rfl

theorem mem_uniqueAux_iff (v : Val) :
    ∀ (l seen : List Val), v ∈ uniqueAux seen l ↔ v ∈ l ∧ v ∉ seen := by
  intro l
  induction l with
  | nil => intro seen; simp [uniqueAux]
  | cons w vs ih =>
    intro seen
    by_cases hw : w ∈ seen
    · rw [uniqueAux, if_pos hw, ih seen]
      constructor
      · rintro ⟨h1, h2⟩
        exact ⟨List.mem_cons_of_mem w h1, h2⟩
      · rintro ⟨h1, h2⟩
        rcases List.mem_cons.1 h1 with rfl | h1
        · exact absurd hw h2
        · exact ⟨h1, h2⟩
    · rw [uniqueAux, if_neg hw]
      constructor
      · intro h
        rcases List.mem_cons.1 h with rfl | h
        · exact ⟨List.mem_cons_self v vs, hw⟩
        · rcases (ih (w :: seen)).1 h with ⟨h1, h2⟩
          exact ⟨List.mem_cons_of_mem w h1,
            fun hc => h2 (List.mem_cons_of_mem w hc)⟩
      · rintro ⟨h1, h2⟩
        rcases List.mem_cons.1 h1 with rfl | h1
        · exact List.mem_cons_self v _
        · by_cases hvw : v = w
          · subst hvw
            exact List.mem_cons_self v _
          · apply List.mem_cons_of_mem
            exact (ih (w :: seen)).2 ⟨h1, by simp [hvw, h2]⟩

theorem mem_uniqueList_iff (v : Val) (l : List Val) : v ∈ uniqueList l ↔ v ∈ l := by
  rw [uniqueList, mem_uniqueAux_iff v l []]
  simp

theorem roleOptions_subset {u t : Table} (hh : u.header = t.header)
    (hsub : List.Sublist u.rows t.rows) (cols : List String) :
    ∀ v ∈ roleOptions u cols, v ∈ roleOptions t cols := by
  intro v hv
  cases cols with
  | nil => simp [roleOptions] at hv
  | cons c cs =>
    simp only [roleOptions] at hv ⊢
    rw [hh] at hv
    cases hidx : idxOfCol t.header c with
    | none =>
      rw [hidx] at hv
      exact absurd hv (List.not_mem_nil v)
    | some i =>
      rw [hidx] at hv
      have hv2 : v ∈ uniqueList ((u.rows.map (fun r => cellAt r i)).filter
          (fun w => decide (w ≠ vNA))) := hv
      show v ∈ uniqueList ((t.rows.map (fun r => cellAt r i)).filter
          (fun w => decide (w ≠ vNA)))
      rw [mem_uniqueList_iff] at hv2 ⊢
      rcases List.mem_filter.1 hv2 with ⟨hm, hp⟩
      exact List.mem_filter.2 ⟨(List.Sublist.map _ hsub).subset hm, hp⟩

/-- Table for the option-shrinking example: the gender value m occurs only
on rows whose income value is high. -/
def shrinkT : Table :=
  ⟨[("income_group", Dtype.object), ("gender", Dtype.object)],
   [[vStr "low", vStr "f"], [vStr "high", vStr "m"]]⟩

/-- C10 (implicit): the filter blocks run in the fixed order income, gender,
region, time; each block's default option set is computed from the table as
already filtered by the earlier blocks (and is always a subset of the
options the original table would offer); concretely, narrowing income to
low shrinks the gender options from [f, m] to [f] and narrows the detected
time bounds. -/
theorem c10_sequential_option_narrowing :
    (∀ (t : Table) (f : FilterSpec),
        applyFilters t f =
          timeStage (filterCat (filterCat (filterCat t (possible_income t) f.income)
            (possible_gender t) f.gender) (possible_neigh t) f.region)
            (possible_time t) f.lo f.hi)
    ∧ (∀ (t : Table) (f : FilterSpec),
        (sidebar t f).result = applyFilters t f
        ∧ (sidebar t f).incomeOpts = roleOptions t (possible_income t)
        ∧ (sidebar t f).genderOpts =
            roleOptions (filterCat t (possible_income t) f.income) (possible_gender t)
        ∧ (sidebar t f).regionOpts =
            roleOptions (filterCat (filterCat t (possible_income t) f.income)
              (possible_gender t) f.gender) (possible_neigh t))
    ∧ (∀ (t : Table) (f : FilterSpec),
        (∀ v ∈ (sidebar t f).genderOpts, v ∈ roleOptions t (possible_gender t))
        ∧ (∀ v ∈ (sidebar t f).regionOpts, v ∈ roleOptions t (possible_neigh t)))
    ∧ ((sidebar shrinkT ⟨[vStr "low"], [vStr "f", vStr "m"], [], vNA, vNA⟩).genderOpts = [vStr "f"]
        ∧ roleOptions shrinkT (possible_gender shrinkT) = [vStr "f", vStr "m"])
    ∧ ((sidebar emptySelT ⟨[vStr "low"], [], [], vDate 20200101, vDate 20200102⟩).timeBounds =
          some (vDate 20200101, vDate 20200101)
        ∧ (sidebar emptySelT
            ⟨[vStr "low", vStr "high"], [], [], vDate 20200101, vDate 20200102⟩).timeBounds =
          some (vDate 20200101, vDate 20200102)) := by
  refine ⟨fun t f => rfl, fun t f => ⟨rfl, rfl, rfl, rfl⟩, ?_, ⟨by decide, by decide⟩,
    ⟨by decide, by decide⟩⟩
  intro t f
  constructor
  · have h1 : (filterCat t (possible_income t) f.income).header = t.header := by
      rw [filterCat_spec]
    have h2 : List.Sublist (filterCat t (possible_income t) f.income).rows t.rows := by
      rw [filterCat_spec]
      exact List.filter_sublist t.rows
    exact roleOptions_subset h1 h2 (possible_gender t)
  · have h1 : (filterCat (filterCat t (possible_income t) f.income)
        (possible_gender t) f.gender).header = t.header := by
      rw [filterCat_spec, filterCat_spec]
    have h2 : List.Sublist (filterCat (filterCat t (possible_income t) f.income)
        (possible_gender t) f.gender).rows t.rows := by
      rw [filterCat_spec, filterCat_spec]
      exact List.Sublist.trans (List.filter_sublist _) (List.filter_sublist t.rows)
    exact roleOptions_subset h1 h2 (possible_neigh t)

/-- Witness for C10: at a concrete table and narrowed income selection, the
gender options equal the distinct gender values of the income-filtered table
and are a subset of the original gender options. -/
theorem c10_sequential_option_narrowing_witness :
    (sidebar shrinkT ⟨[vStr "low"], [vStr "f", vStr "m"], [], vNA, vNA⟩).genderOpts =
      roleOptions (filterCat shrinkT (possible_income shrinkT) [vStr "low"])
        (possible_gender shrinkT)
    ∧ vStr "f" ∈ roleOptions shrinkT (possible_gender shrinkT) := by
  constructor
  · exact (c10_sequential_option_narrowing.2.1 shrinkT
      ⟨[vStr "low"], [vStr "f", vStr "m"], [], vNA, vNA⟩).2.2.1
  · exact (c10_sequential_option_narrowing.2.2.1 shrinkT
      ⟨[vStr "low"], [vStr "f", vStr "m"], [], vNA, vNA⟩).1 (vStr "f") (by decide)

/-- C5: the geographic step yields no points whenever the latitude role or
the longitude role is unmapped, and every point it does yield lies within
[-90, 90] x [-180, 180] (rows with non-numeric or out-of-range coordinates
are dropped silently). -/
theorem c5_build_points_skip_and_ranges (t : Table) :
    ((lat_cols t = [] ∨ lon_cols t = []) → build_points t = [])
    ∧ ∀ p ∈ build_points t, -90 ≤ p.1 ∧ p.1 ≤ 90 ∧ -180 ≤ p.2 ∧ p.2 ≤ 180 := by
  constructor
  · intro h
    rcases h with h | h
    · simp only [build_points, h]
    · cases hl : lat_cols t <;> simp only [build_points, hl, h]
  · intro p hp
    cases hl : lat_cols t with
    | nil =>
      simp only [build_points, hl] at hp
      exact absurd hp (List.not_mem_nil p)
    | cons la las =>
      cases ho : lon_cols t with
      | nil =>
        simp only [build_points, hl, ho] at hp
        exact absurd hp (List.not_mem_nil p)
      | cons lo los =>
        cases hi : idxOfCol t.header la with
        | none =>
          simp only [build_points, hl, ho, hi] at hp
          exact absurd hp (List.not_mem_nil p)
        | some i =>
          cases hj : idxOfCol t.header lo with
          | none =>
            simp only [build_points, hl, ho, hi, hj] at hp
            exact absurd hp (List.not_mem_nil p)
          | some j =>
            simp only [build_points, hl, ho, hi, hj, renderMapPoints] at hp
            rcases List.mem_filterMap.1 hp with ⟨a, _, ha⟩
            rcases a with ⟨va, vb⟩
            cases va <;> cases vb <;> simp [pointOk] at ha
            rcases ha with ⟨⟨h1, h2, h3, h4⟩, rfl⟩
            exact ⟨h1, h2, h3, h4⟩

/-- Concrete coordinate table: an in-range row, an out-of-range latitude, a
non-numeric latitude, and a boundary row. -/
def geoExT : Table :=
  ⟨[("lat", Dtype.float64), ("lon", Dtype.float64)],
   [[vInt 19, vInt (-99)], [vInt 91, vInt 0], [vStr "x", vInt 3], [vInt (-90), vInt 180]]⟩

/-- Table without any latitude or longitude column. -/
def noGeoT : Table := ⟨[("value", Dtype.int64)], [[vInt 1]]⟩

/-- Witness for C5: the geographic step is skipped on a table with no
latitude column, and a concrete produced point is within range. -/
theorem c5_build_points_skip_and_ranges_witness :
    build_points noGeoT = [] ∧
      (-90 ≤ (19 : Int) ∧ (19 : Int) ≤ 90 ∧ -180 ≤ (-99 : Int) ∧ (-99 : Int) ≤ 180) :=
  ⟨(c5_build_points_skip_and_ranges noGeoT).1 (Or.inl (by decide)),
    by
      have h := (c5_build_points_skip_and_ranges geoExT).2 (19, -99) (by decide)
      exact h⟩

/-- Table with a text column and a numeric column, for the chart claims. -/
def chartExT : Table :=
  ⟨[("name", Dtype.object), ("value", Dtype.int64)], [[vStr "a", vInt 1], [vStr "b", vInt 2]]⟩

/-- Counterexample to C4 as stated: the chart call does not fail on a
non-numeric axis — with x naming a present object-dtype column it succeeds
and plots the string values; no InvalidAxisError exists in the code. The
selection widgets of dashboard-filters.py merely avoid offering such a
column. -/
theorem c4_build_chart_invalid_axis_counterexample :
    "name" ∈ colNames chartExT ∧ "name" ∉ numericCols chartExT ∧
      build_chart chartExT "name" "value" =
        Except.ok [(vStr "a", vInt 1), (vStr "b", vInt 2)] :=
  ⟨by decide, by decide, by decide⟩

/-- C4 (amended): build_chart fails, with a generic caught error rather than
a distinct InvalidAxisError, exactly when x or y names an absent column;
with both columns present — numeric or not — it succeeds and produces
exactly one point per surviving row, with no aggregation. -/
theorem c4_build_chart_amended :
    (∀ (t : Table) (x y : String) (i j : Nat),
        idxOfCol t.header x = some i → idxOfCol t.header y = some j →
        build_chart t x y = Except.ok (t.rows.map (fun r => (cellAt r i, cellAt r j))))
    ∧ (∀ (t : Table) (x y : String),
        idxOfCol t.header x = none ∨ idxOfCol t.header y = none →
        build_chart t x y = Except.error "column not found")
    ∧ (∀ (t : Table) (x y : String) (pts : List (Val × Val)),
        build_chart t x y = Except.ok pts → pts.length = t.rows.length) := by
  refine ⟨?_, ?_, ?_⟩
  · intro t x y i j hx hy
    simp only [build_chart, hx, hy]
  · intro t x y h
    rcases h with h | h
    · simp only [build_chart, h]
    · cases hx : idxOfCol t.header x <;> simp only [build_chart, h, hx]
  · intro t x y pts h
    cases hx : idxOfCol t.header x with
    | none =>
      simp only [build_chart, hx] at h
      exact absurd h (by simp)
    | some i =>
      cases hy : idxOfCol t.header y with
      | none =>
        simp only [build_chart, hx, hy] at h
        exact absurd h (by simp)
      | some j =>
        simp only [build_chart, hx, hy, Except.ok.injEq] at h
        rw [← h]
        exact List.length_map t.rows _

/-- Witness for the amended C4: a present pair of columns yields one point
per row, and a missing column yields the caught error. -/
theorem c4_build_chart_amended_witness :
    build_chart chartExT "value" "value" =
      Except.ok [(vInt 1, vInt 1), (vInt 2, vInt 2)]
    ∧ build_chart chartExT "missing" "value" = Except.error "column not found" :=
  ⟨(c4_build_chart_amended.1 chartExT "value" "value" 1 1 (by decide) (by decide)).trans
      (by decide),
    c4_build_chart_amended.2.1 chartExT "missing" "value" (Or.inl (by decide))⟩

/-- C8: a failing chart call is atomic for the interaction cycle — the
handler converts the exception into a user-facing message (the cycle is a
total function, the session does not crash), the chart and preview are
skipped, and the FilteredTable and ColumnRoleMap of the cycle are exactly
the pipeline derivations, identical to those of a cycle with any other
ChartSpec. -/
theorem c8_chart_failure_is_atomic (t : Table) (f : FilterSpec) (x y : String) (e : String)
    (herr : build_chart (applyFilters (dropAllNaRows (cleanCols t)) f) x y =
      Except.error e) :
    (interaction t f x y).errMsg = some ("Error processing dataset: " ++ e)
    ∧ (interaction t f x y).chart = none
    ∧ (interaction t f x y).filtered = applyFilters (dropAllNaRows (cleanCols t)) f
    ∧ (interaction t f x y).roles = infer_roles (dropAllNaRows (cleanCols t))
    ∧ ∀ (x' y' : String), (interaction t f x y).filtered = (interaction t f x' y').filtered
        ∧ (interaction t f x y).roles = (interaction t f x' y').roles := by
  refine ⟨?_, ?_, ?_, ?_, ?_⟩
  · simp only [interaction, herr]
  · simp only [interaction, herr]
  · simp only [interaction, herr]
  · simp only [interaction, herr]
  · intro x' y'
    cases h' : build_chart (applyFilters (dropAllNaRows (cleanCols t)) f) x' y' <;>
      simp only [interaction, herr, h'] <;> exact ⟨trivial, trivial⟩

/-- Witness for C8 at a concrete table: a ChartSpec naming a missing column
produces the caught message while the filtered table of the cycle equals the
pipeline result and agrees with the cycle that uses a valid ChartSpec. -/
theorem c8_chart_failure_is_atomic_witness :
    (interaction chartExT ⟨[], [], [], vNA, vNA⟩ "missing" "value").errMsg =
      some "Error processing dataset: column not found"
    ∧ (interaction chartExT ⟨[], [], [], vNA, vNA⟩ "missing" "value").filtered =
        applyFilters (dropAllNaRows (cleanCols chartExT)) ⟨[], [], [], vNA, vNA⟩
    ∧ (interaction chartExT ⟨[], [], [], vNA, vNA⟩ "missing" "value").filtered =
        (interaction chartExT ⟨[], [], [], vNA, vNA⟩ "value" "value").filtered := by
  have h := c8_chart_failure_is_atomic chartExT ⟨[], [], [], vNA, vNA⟩ "missing" "value"
    "column not found" (by decide)
  exact ⟨h.1, h.2.2.1, (h.2.2.2.2 "value" "value").1⟩

/-- Table whose single date column makes the script coerce in place while
df still aliases the loaded table. -/
def inPlaceT : Table := ⟨[("date", Dtype.object)], [[vStr "2020-01-01"], [vStr "bad"]]⟩

/-- A full-range FilterSpec for the mutation counterexample. -/
def inPlaceF : FilterSpec := ⟨[], [], [], vDate 20200101, vDate 20200101⟩

/-- Counterexample to C9 as stated: running the script on a table with only
a date column leaves the original table object changed — its column dtype
became datetime64 and its cells were overwritten by the coerced values
(line 65 executes while df still aliases the loaded object). -/
theorem c9_no_mutation_counterexample :
    (runScript inPlaceT inPlaceF).orig ≠ inPlaceT ∧
      (runScript inPlaceT inPlaceF).orig =
        ⟨[("date", Dtype.datetime64)], [[vDate 20200101], [vNA]]⟩ :=
  ⟨by decide, by decide⟩

/-- C9 (amended): the row-selection filters never mutate the original table;
when the table needs no cleaning changes (names already normalized, no
all-blank row) and at least one categorical role is mapped — so df is
rebound before the time block — the original table is unchanged after the
script, and df ends bound to exactly apply_filters of the table. -/
theorem c9_no_mutation_amended (t : Table) (f : FilterSpec)
    (hclean : cleanCols t = t) (hna : dropAllNaRows t = t)
    (hcat : possible_income t ≠ [] ∨ possible_gender t ≠ [] ∨ possible_neigh t ≠ []) :
    (runScript t f).orig = t ∧ (runScript t f).cur = applyFilters t f := by
  have h2 : inPlace dropAllNaRows (inPlace cleanCols { orig := t, cur := t, aliased := true })
      = { orig := t, cur := t, aliased := true } := by
    unfold inPlace
    simp [hclean, hna]
  unfold runScript
  rw [hclean, hna, h2]
  constructor
  · have h5a : (catStepState (possible_neigh t) (fun c u => isinFilterAt u c f.region)
        (catStepState (possible_gender t) (fun c u => isinFilterAt u c f.gender)
          (catStepState (possible_income t) (fun c u => isinFilterAt u c f.income)
            { orig := t, cur := t, aliased := true }))).aliased = false := by
      rcases hcat with h | h | h
      · exact catStepState_aliased _ _ _ (catStepState_aliased _ _ _
          (catStepState_aliased_ne _ _ _ h))
      · exact catStepState_aliased _ _ _ (catStepState_aliased_ne _ _ _ h)
      · exact catStepState_aliased_ne _ _ _ h
    unfold scriptAfterClean
    rw [timeStepState_orig _ _ _ h5a, catStepState_orig, catStepState_orig, catStepState_orig]
  · unfold scriptAfterClean
    rw [timeStepState_cur, catStepState_cur_filter, catStepState_cur_filter,
      catStepState_cur_filter]
    rfl

/-- Witness for the amended C9: on a clean table with an income column, the
original object is untouched and df holds the filtered result. -/
theorem c9_no_mutation_amended_witness :
    (runScript emptySelT ⟨[vStr "low"], [], [], vDate 20200101, vDate 20200102⟩).orig = emptySelT
    ∧ (runScript emptySelT ⟨[vStr "low"], [], [], vDate 20200101, vDate 20200102⟩).cur =
        applyFilters emptySelT ⟨[vStr "low"], [], [], vDate 20200101, vDate 20200102⟩ :=
  c9_no_mutation_amended emptySelT ⟨[vStr "low"], [], [], vDate 20200101, vDate 20200102⟩
    (by decide) (by decide) (Or.inl (by decide))

/-- End-to-end scenario table of the spec: 50 rows whose date column holds
45 parseable dates and 5 unparseable strings. -/
def dateScenarioT : Table :=
  ⟨[("date", Dtype.object)],
   [[vStr "2020-01-01"], [vStr "2020-01-02"], [vStr "2020-01-03"], [vStr "2020-01-04"], [vStr "2020-01-05"],
    [vStr "2020-01-06"], [vStr "2020-01-07"], [vStr "n/a"], [vStr "2020-01-08"], [vStr "2020-01-09"],
    [vStr "2020-01-10"], [vStr "2020-01-11"], [vStr "2020-01-12"], [vStr "2020-01-13"], [vStr "2020-01-14"],
    [vStr "2020-01-15"], [vStr "2020-01-16"], [vStr "2020-01-17"], [vStr "2020-01-18"], [vStr "unknown"],
    [vStr "2020-01-19"], [vStr "2020-01-20"], [vStr "2020-01-21"], [vStr "2020-13-01"], [vStr "2020-01-22"],
    [vStr "2020-01-23"], [vStr "2020-01-24"], [vStr "2020-01-25"], [vStr "2020-01-26"], [vStr "2020-01-27"],
    [vStr "2020-01-28"], [vStr "2020-01-29"], [vStr "2020-01-30"], [vStr "2020-02-01"], [vStr "2020-02-02"],
    [vStr "2020-02-03"], [vStr "2020-02-04"], [vStr "soon"], [vStr "2020-02-05"], [vStr "2020-02-06"],
    [vStr "2020-02-07"], [vStr "2020-02-08"], [vStr "2020-02-09"], [vStr "2020-02-10"], [vStr "2020-02-11"],
    [vStr "2020-02-12"], [vStr "2020-02-13"], [vStr "2020-02-14"], [vStr "2020-02-15"], [vStr "not recorded"]]⟩

/-- FilterSpec selecting the full detected range of the scenario table. -/
def dateScenarioF : FilterSpec := ⟨[], [], [], vDate 20200101, vDate 20200215⟩

/-- C2: with a mapped time role over an object-dtype column, the filtered
rows are exactly the categorical survivors whose coerced time cell parsed
(is not NA) and lies within the inclusive selected range; in particular the
50-row scenario table with 5 unparseable date strings, filtered on the full
detected range, keeps exactly 45 rows. -/
theorem c2_time_filter_parse_drop_range :
    (∀ (t : Table) (f : FilterSpec) (c : String) (cs : List String) (i : Nat),
        possible_time t = c :: cs → idxOfCol t.header c = some i →
        dtypeAtName t c = some Dtype.object →
        (applyFilters t f).rows =
          (((t.rows.filter (catsPred t f)).map (coerceRow i)).filter
              (fun r => decide (cellAt r i ≠ vNA))).filter
            (fun r => valLe f.lo (cellAt r i) && valLe (cellAt r i) f.hi))
    ∧ (applyFilters dateScenarioT dateScenarioF).rows.length = 45
    ∧ (sidebar dateScenarioT dateScenarioF).timeBounds =
        some (vDate 20200101, vDate 20200215) := by
  refine ⟨?_, by decide, by decide⟩
  intro t f c cs i hpt hidx hdt
  rw [applyFilters_eq_timeStage_cats t f, hpt]
  exact timeStage_rows_object ⟨t.header, t.rows.filter (catsPred t f)⟩ c i cs f.lo f.hi hidx hdt

/-- Small table for the C2 witness: three rows, one unparseable. -/
def dateSmallT : Table :=
  ⟨[("date", Dtype.object)], [[vStr "2020-01-02"], [vStr "oops"], [vStr "2020-01-01"]]⟩

/-- Witness for C2: on a concrete object-dtype date column, the row with the
unparseable string is dropped and the two parseable rows inside the range
survive, coerced to datetimes. -/
theorem c2_time_filter_parse_drop_range_witness :
    (applyFilters dateSmallT ⟨[], [], [], vDate 20200101, vDate 20200102⟩).rows =
      [[vDate 20200102], [vDate 20200101]] :=
  (c2_time_filter_parse_drop_range.1 dateSmallT ⟨[], [], [], vDate 20200101, vDate 20200102⟩
      "date" [] 0 (by decide) (by decide) (by decide)).trans (by decide)

/-- C1: for every table, role inference assigns to each role either no
column, or the first column in the table's column order whose normalized
(whitespace-stripped, spaces-to-underscores, lowercased) name contains one
of that role's trigger substrings; and a first-match scan returns no column
whenever the trigger is absent from every column name. -/
theorem c1_infer_roles_first_match (t : Table) :
    (infer_roles (cleanCols t) =
      ⟨specFirstMatch ((colNames t).map normName) (fun c => strContains c "income"),
        specFirstMatch ((colNames t).map normName) (fun c => strContains c "gender"),
        specFirstMatch ((colNames t).map normName)
          (fun c => strContains c "neigh" || strContains c "municipality"),
        specFirstMatch ((colNames t).map normName)
          (fun c => strContains c "year" || strContains c "month" || strContains c "date"),
        specFirstMatch ((colNames t).map normName) (fun c => strContains c "lat"),
        specFirstMatch ((colNames t).map normName)
          (fun c => strContains c "lon" || strContains c "lng")⟩)
    ∧ ∀ (ns : List String) (p : String → Bool),
        (∀ c ∈ ns, p c = false) → specFirstMatch ns p = none := by
  constructor
  · unfold infer_roles
    congr 1
    · rw [specFirstMatch_eq_head_filter]
      unfold possible_income
      rw [colNames_cleanCols]
    · rw [specFirstMatch_eq_head_filter]
      unfold possible_gender
      rw [colNames_cleanCols]
    · rw [specFirstMatch_eq_head_filter]
      unfold possible_neigh
      rw [colNames_cleanCols]
    · rw [specFirstMatch_eq_head_filter]
      unfold possible_time
      rw [colNames_cleanCols]
    · rw [specFirstMatch_eq_head_filter]
      rw [lat_cols_clean]
    · rw [specFirstMatch_eq_head_filter]
      rw [lon_cols_clean]
  · intro ns p h
    rw [specFirstMatch_eq_head_filter]
    rw [List.filter_eq_nil_iff.2 (fun a ha => by rw [h a ha]; exact Bool.false_ne_true)]
    rfl

/-- Concrete table exercising role inference. -/
def roleExT : Table :=
  ⟨[("Household Income", Dtype.object), ("Sex", Dtype.object),
    ("municipality_name", Dtype.object), ("Year", Dtype.int64),
    ("lat", Dtype.float64), ("longitude", Dtype.float64)], []⟩

/-- Witness for C1 at a concrete table: the inferred map picks the first
matching normalized name per role, leaves gender unmapped, and the scan of a
trigger-free name list yields no column. -/
theorem c1_infer_roles_first_match_witness :
    infer_roles (cleanCols roleExT) =
      ⟨some "household_income", none, some "municipality_name", some "year",
        some "lat", some "longitude"⟩
    ∧ specFirstMatch ["value_a", "value_b"] (fun c => strContains c "income") = none :=
  ⟨(c1_infer_roles_first_match roleExT).1.trans (by decide),
    (c1_infer_roles_first_match roleExT).2 ["value_a", "value_b"] _ (by decide)⟩
